import Mathlib

/-
  Shallow embedding of the Chart-Library repository (Chart.js and the
  bundled variants in src/unnamed/part_000 .. part_005).

  Numbers are modelled as rationals (ℚ); the only irrational operation in
  the sources, Math.sqrt inside Correlation.pearson, is modelled as
  Real.sqrt on the real-number image of the rational core.  JavaScript
  arrays of numbers are Lean lists; `undefined` entries that d3.min /
  d3.max / d3.extent skip are modelled with Option.
-/

namespace ChartLib

/-- Model of d3.sum on a fully defined numeric array. -/
def d3sum (l : List ℚ) : ℚ := l.sum

/-- Model of d3.mean on a fully defined numeric array: sum divided by
length (division by zero yields 0 for the empty list, which the claims
exclude). -/
def d3mean (l : List ℚ) : ℚ := l.sum / l.length

/-- Combine one possibly-undefined value with a running d3.min result:
undefined values are skipped. -/
def optMin : Option ℚ → Option ℚ → Option ℚ
  | none, b => b
  | some v, none => some v
  | some v, some w => some (min v w)

/-- Combine one possibly-undefined value with a running d3.max result:
undefined values are skipped. -/
def optMax : Option ℚ → Option ℚ → Option ℚ
  | none, b => b
  | some v, none => some v
  | some v, some w => some (max v w)

/-- Model of d3.min over an array with possibly-undefined entries:
the minimum of the defined entries, or undefined if there are none. -/
def d3min (l : List (Option ℚ)) : Option ℚ := l.foldr optMin none

/-- Model of d3.max over an array with possibly-undefined entries. -/
def d3max (l : List (Option ℚ)) : Option ℚ := l.foldr optMax none

/-- Model of d3.extent over a numeric array: the pair [min, max], both
undefined on the empty array. -/
def d3extent (l : List ℚ) : Option ℚ × Option ℚ :=
  (d3min (l.map some), d3max (l.map some))

namespace Chart

/-- Model of Chart.genSequence (src/Chart.js lines 71-78 and
src/unnamed/part_004 lines 298-305).  The source decrements `size`, then
pushes `start + i * (end - start) / size` for i = 0 .. size; so it emits
max(size, 0) values.  The JS `end` parameter is called `stop` here since
`end` is a Lean keyword. -/
def genSequence (start : ℚ) (size : ℤ) (stop : ℚ) : List ℚ :=
  (List.range size.toNat).map
    (fun i : ℕ => start + (i : ℚ) * (stop - start) / ((size - 1 : ℤ) : ℚ))

end Chart

end ChartLib

namespace ChartLib

theorem genSequence_getElem? (start stop : ℚ) (size : ℤ) (i : ℕ)
    (hi : i < size.toNat) :
    (Chart.genSequence start size stop)[i]? =
      some (start + (i : ℚ) * (stop - start) / ((size - 1 : ℤ) : ℚ)) := by
  unfold Chart.genSequence
  rw [List.getElem?_map, List.getElem?_range hi]
  rfl

end ChartLib

/-- C7: for every start, every end and every integer size ≥ 2,
Chart.genSequence(start, size, end) returns an array of exactly `size`
values whose first element is `start`, whose last element is `end`, and in
which the difference between consecutive elements is the constant
(end - start) / (size - 1). -/
theorem chart_genSequence_linear (start stop : ℚ) (size : ℤ)
    (hsize : 2 ≤ size) :
    (ChartLib.Chart.genSequence start size stop).length = size.toNat ∧
    (ChartLib.Chart.genSequence start size stop).head? = some start ∧
    (ChartLib.Chart.genSequence start size stop).getLast? = some stop ∧
    ∀ i : ℕ, i + 1 < (ChartLib.Chart.genSequence start size stop).length →
      (ChartLib.Chart.genSequence start size stop).getD (i + 1) 0 -
        (ChartLib.Chart.genSequence start size stop).getD i 0 =
        (stop - start) / ((size : ℚ) - 1) := by
  have hlen : (ChartLib.Chart.genSequence start size stop).length = size.toNat := by
    simp [ChartLib.Chart.genSequence]
  have hpos : 0 < size.toNat := by omega
  have hden : ((size - 1 : ℤ) : ℚ) ≠ 0 := by
    have : size - 1 ≠ 0 := by omega
    exact_mod_cast this
  refine ⟨hlen, ?_, ?_, ?_⟩
  · -- head is start
    have h0 : (0 : ℕ) < size.toNat := hpos
    rw [List.head?_eq_getElem?,
      ChartLib.genSequence_getElem? start stop size 0 h0]
    simp
  · -- last is stop
    have hidx : size.toNat - 1 < size.toNat := by omega
    rw [List.getLast?_eq_getElem?, hlen,
      ChartLib.genSequence_getElem? start stop size (size.toNat - 1) hidx]
    have hcast : ((size.toNat - 1 : ℕ) : ℚ) = ((size - 1 : ℤ) : ℚ) := by
      have h1 : ((size.toNat - 1 : ℕ) : ℤ) = size - 1 := by omega
      exact_mod_cast congrArg (fun z : ℤ => (z : ℚ)) h1
    rw [hcast, mul_div_assoc, mul_comm, div_mul_cancel₀ _ hden]
    congr 1
    ring
  · -- constant consecutive difference
    intro i hi1
    rw [hlen] at hi1
    have hi : i < size.toNat := by omega
    rw [List.getD_eq_getElem?_getD, List.getD_eq_getElem?_getD,
      ChartLib.genSequence_getElem? start stop size (i + 1) hi1,
      ChartLib.genSequence_getElem? start stop size i hi]
    have hcast2 : ((size - 1 : ℤ) : ℚ) = (size : ℚ) - 1 := by push_cast; ring
    rw [hcast2]
    have hden2 : ((size : ℚ) - 1) ≠ 0 := by rw [← hcast2]; exact hden
    simp only [Option.getD_some]
    field_simp
    ring

namespace ChartLib

/-- The resolved margins object of a chart. -/
structure Margins where
  left : ℚ
  right : ℚ
  top : ℚ
  bottom : ℚ
  deriving DecidableEq

/-- The dimensions argument of a chart constructor. -/
structure Dimensions where
  width : ℚ
  height : ℚ
  deriving DecidableEq

/-- The margins argument of a chart constructor: null, a single number, or
a full margins object. -/
inductive MarginsArg where
  | null : MarginsArg
  | num : ℚ → MarginsArg
  | obj : Margins → MarginsArg
  deriving DecidableEq

/-- The position argument of a chart constructor: null, a non-null value
that is not an object (typeof != "object"), or an object with x and y. -/
inductive PositionArg where
  | null : PositionArg
  | nonObject : PositionArg
  | obj : ℚ → ℚ → PositionArg
  deriving DecidableEq

/-- The observable result of running a Chart constructor: the stored
margins, the inner width and height, the stored position, and the
translate(a, b) transform put on the mounted group. -/
structure ChartInit where
  margins : Margins
  width : ℚ
  height : ℚ
  x : ℚ
  y : ℚ
  transform : ℚ × ℚ
  deriving DecidableEq

namespace Chart

/-- Margin resolution shared by all Chart constructor versions
(src/Chart.js lines 35-41, part_004 lines 184-190, part_002 lines
55-61): null gives 10 on all sides, a number gives that number on all
sides, an object is stored as is. -/
def resolveMargins : MarginsArg → Margins
  | MarginsArg.null => ⟨10, 10, 10, 10⟩
  | MarginsArg.num m => ⟨m, m, m, m⟩
  | MarginsArg.obj mg => mg

/-- Position resolution of part_004 lines 176-182 and part_002 lines
43-49: a null or non-object position gives (0, 0), an object gives its
x and y fields. -/
def resolvePosition : PositionArg → ℚ × ℚ
  | PositionArg.obj px py => (px, py)
  | _ => (0, 0)

/-- Chart constructor of src/Chart.js lines 18-62: no position argument;
inner width and height are the totals minus the margins, and the group is
mounted at translate(margins.left, margins.top). -/
def constructorV1 (margins : MarginsArg) (totalWidth totalHeight : ℚ) :
    ChartInit :=
  let mg := resolveMargins margins
  { margins := mg
    width := totalWidth - mg.left - mg.right
    height := totalHeight - mg.top - mg.bottom
    x := 0
    y := 0
    transform := (mg.left, mg.top) }

/-- Chart constructor of part_004 lines 171-204: position resolved to
(x, y), margins resolved, inner sizes from the dimensions argument (or
from the container's width/height attributes when dimensions is null),
and the group mounted at translate(margins.left + x, margins.top + y). -/
def constructorV4 (position : PositionArg) (margins : MarginsArg)
    (dimensions : Option Dimensions)
    (containerWidth containerHeight : ℚ) : ChartInit :=
  let p := resolvePosition position
  let mg := resolveMargins margins
  let w := match dimensions with
    | none => containerWidth - mg.left - mg.right
    | some dim => dim.width - mg.left - mg.right
  let h := match dimensions with
    | none => containerHeight - mg.top - mg.bottom
    | some dim => dim.height - mg.top - mg.bottom
  { margins := mg
    width := w
    height := h
    x := p.1
    y := p.2
    transform := (mg.left + p.1, mg.top + p.2) }

/-- Chart constructor of part_002 lines 18-90: after resolving the
margins, the source adds the x position to the left margin and the y
position to the top margin (lines 62-63); inner sizes then subtract the
mutated margins, with a +x / +y compensation only in the null-dimensions
branch (lines 73-79); the group is mounted at translate(margins.left,
margins.top) using the mutated margins. -/
def constructorV2 (position : PositionArg) (margins : MarginsArg)
    (dimensions : Option Dimensions)
    (containerWidth containerHeight : ℚ) : ChartInit :=
  let p := resolvePosition position
  let mg0 := resolveMargins margins
  let mg : Margins := { mg0 with left := mg0.left + p.1, top := mg0.top + p.2 }
  let w := match dimensions with
    | none => containerWidth - mg.left - mg.right + p.1
    | some dim => dim.width - mg.left - mg.right
  let h := match dimensions with
    | none => containerHeight - mg.top - mg.bottom + p.2
    | some dim => dim.height - mg.top - mg.bottom
  { margins := mg
    width := w
    height := h
    x := p.1
    y := p.2
    transform := (mg.left, mg.top) }

end Chart

namespace Pie

/-- Pie constructor of part_004 lines 1270-1273: it runs the base Chart
constructor and then overwrites the group transform with
translate(margins.left + width / 2, margins.top + height / 2), which does
not mention the position. -/
def constructorV4 (position : PositionArg) (margins : MarginsArg)
    (dimensions : Option Dimensions)
    (containerWidth containerHeight : ℚ) : ChartInit :=
  let base := Chart.constructorV4 position margins dimensions
    containerWidth containerHeight
  { base with
    transform := (base.margins.left + base.width / 2,
      base.margins.top + base.height / 2) }

end Pie

namespace StarGlyph

/-- StarGlyph constructor of part_004 lines 1452-1455: like Pie, it
overwrites the base transform with the centered
translate(margins.left + width / 2, margins.top + height / 2). -/
def constructorV4 (position : PositionArg) (margins : MarginsArg)
    (dimensions : Option Dimensions)
    (containerWidth containerHeight : ℚ) : ChartInit :=
  let base := Chart.constructorV4 position margins dimensions
    containerWidth containerHeight
  { base with
    transform := (base.margins.left + base.width / 2,
      base.margins.top + base.height / 2) }

end StarGlyph

end ChartLib

/-- C4 counterexample: in the part_002 Chart constructor, with margins
null, position {x: 5, y: 0} and dimensions 100 by 100, the stored left
margin is 15, not 10, and the inner width is 75, not 80: the claim that a
null margins argument always yields margins of 10 on all four sides (and
inner width = dimensions.width minus a left and right margin of 10) is
false for this constructor. -/
theorem chart_margins_claim_cex :
    (ChartLib.Chart.constructorV2 (ChartLib.PositionArg.obj 5 0)
        ChartLib.MarginsArg.null (some ⟨100, 100⟩) 0 0).margins ≠
      ⟨10, 10, 10, 10⟩ ∧
    (ChartLib.Chart.constructorV2 (ChartLib.PositionArg.obj 5 0)
        ChartLib.MarginsArg.null (some ⟨100, 100⟩) 0 0).width ≠ 100 - 10 - 10 := by
  constructor
  · norm_num [ChartLib.Chart.constructorV2, ChartLib.Chart.resolveMargins,
      ChartLib.Chart.resolvePosition, ChartLib.Margins.mk.injEq]
  · norm_num [ChartLib.Chart.constructorV2, ChartLib.Chart.resolveMargins,
      ChartLib.Chart.resolvePosition]

/-- C4 (amended): margin resolution behaves as claimed in the src/Chart.js
and part_004 constructors: null margins give 10 on all four sides, a
numeric argument m gives m on all four sides, and with explicit dimensions
the inner width (height) is the total width (height) minus the left and
right (top and bottom) margins.  In the part_002 constructor the x and y
position are added to the resolved left and top margins, so the stored
margins equal the resolved ones only up to that offset (in particular the
claim holds there exactly when the position is null, not an object, or
(0, 0)); the inner sizes still equal the explicit dimensions minus the
stored (mutated) margins. -/
theorem chart_margin_dimension_resolution :
    (∀ w h : ℚ,
      (ChartLib.Chart.constructorV1 ChartLib.MarginsArg.null w h).margins =
        ⟨10, 10, 10, 10⟩ ∧
      ∀ m : ℚ,
        (ChartLib.Chart.constructorV1 (ChartLib.MarginsArg.num m) w h).margins =
          ⟨m, m, m, m⟩) ∧
    (∀ (marg : ChartLib.MarginsArg) (w h : ℚ),
      (ChartLib.Chart.constructorV1 marg w h).width =
        w - (ChartLib.Chart.constructorV1 marg w h).margins.left -
          (ChartLib.Chart.constructorV1 marg w h).margins.right ∧
      (ChartLib.Chart.constructorV1 marg w h).height =
        h - (ChartLib.Chart.constructorV1 marg w h).margins.top -
          (ChartLib.Chart.constructorV1 marg w h).margins.bottom) ∧
    (∀ (pos : ChartLib.PositionArg) (dim : ChartLib.Dimensions) (cw ch : ℚ),
      (ChartLib.Chart.constructorV4 pos ChartLib.MarginsArg.null (some dim) cw ch).margins =
        ⟨10, 10, 10, 10⟩ ∧
      (∀ m : ℚ,
        (ChartLib.Chart.constructorV4 pos (ChartLib.MarginsArg.num m) (some dim) cw ch).margins =
          ⟨m, m, m, m⟩) ∧
      ∀ marg : ChartLib.MarginsArg,
        (ChartLib.Chart.constructorV4 pos marg (some dim) cw ch).width =
          dim.width - (ChartLib.Chart.constructorV4 pos marg (some dim) cw ch).margins.left -
            (ChartLib.Chart.constructorV4 pos marg (some dim) cw ch).margins.right ∧
        (ChartLib.Chart.constructorV4 pos marg (some dim) cw ch).height =
          dim.height - (ChartLib.Chart.constructorV4 pos marg (some dim) cw ch).margins.top -
            (ChartLib.Chart.constructorV4 pos marg (some dim) cw ch).margins.bottom) ∧
    (∀ (pos : ChartLib.PositionArg) (marg : ChartLib.MarginsArg)
        (dim : ChartLib.Dimensions) (cw ch : ℚ),
      (ChartLib.Chart.constructorV2 pos marg (some dim) cw ch).margins =
        { ChartLib.Chart.resolveMargins marg with
          left := (ChartLib.Chart.resolveMargins marg).left +
            (ChartLib.Chart.resolvePosition pos).1
          top := (ChartLib.Chart.resolveMargins marg).top +
            (ChartLib.Chart.resolvePosition pos).2 } ∧
      (ChartLib.Chart.constructorV2 pos marg (some dim) cw ch).width =
        dim.width - (ChartLib.Chart.constructorV2 pos marg (some dim) cw ch).margins.left -
          (ChartLib.Chart.constructorV2 pos marg (some dim) cw ch).margins.right ∧
      (ChartLib.Chart.constructorV2 pos marg (some dim) cw ch).height =
        dim.height - (ChartLib.Chart.constructorV2 pos marg (some dim) cw ch).margins.top -
          (ChartLib.Chart.constructorV2 pos marg (some dim) cw ch).margins.bottom) := by
  refine ⟨fun w h => ⟨rfl, fun m => rfl⟩, fun marg w h => ⟨rfl, rfl⟩,
    fun pos dim cw ch => ⟨rfl, fun m => rfl, fun marg => ⟨rfl, rfl⟩⟩,
    fun pos marg dim cw ch => ⟨rfl, rfl, rfl⟩⟩

/-- C5 counterexample: a Pie chart constructed with position {x: 5, y: 7},
margins 10 and dimensions 100 by 100 is mounted with transform
translate(50, 50) (the centering transform), not the claimed
translate(margins.left + x, margins.top + y) = translate(15, 17). -/
theorem chart_transform_claim_cex :
    (ChartLib.Pie.constructorV4 (ChartLib.PositionArg.obj 5 7)
        (ChartLib.MarginsArg.num 10) (some ⟨100, 100⟩) 0 0).transform = (50, 50) ∧
    (ChartLib.Pie.constructorV4 (ChartLib.PositionArg.obj 5 7)
        (ChartLib.MarginsArg.num 10) (some ⟨100, 100⟩) 0 0).transform ≠
      (10 + 5, 10 + 7) := by
  constructor
  · norm_num [ChartLib.Pie.constructorV4, ChartLib.Chart.constructorV4,
      ChartLib.Chart.resolveMargins, ChartLib.Chart.resolvePosition, Prod.ext_iff]
  · norm_num [ChartLib.Pie.constructorV4, ChartLib.Chart.constructorV4,
      ChartLib.Chart.resolveMargins, ChartLib.Chart.resolvePosition, Prod.ext_iff]

/-- C5 (amended): the base Chart constructor of part_004 mounts the group
with transform translate(margins.left + x, margins.top + y), where (x, y)
comes from the position argument when it is an object and is (0, 0) when
it is null or not an object.  Pie and StarGlyph, however, immediately
overwrite that transform with the centered
translate(margins.left + width / 2, margins.top + height / 2), which
discards the requested position. -/
theorem chart_mount_transform :
    (∀ (pos : ChartLib.PositionArg) (marg : ChartLib.MarginsArg)
        (dims : Option ChartLib.Dimensions) (cw ch : ℚ),
      (ChartLib.Chart.constructorV4 pos marg dims cw ch).transform =
        ((ChartLib.Chart.resolveMargins marg).left +
            (ChartLib.Chart.resolvePosition pos).1,
          (ChartLib.Chart.resolveMargins marg).top +
            (ChartLib.Chart.resolvePosition pos).2)) ∧
    ChartLib.Chart.resolvePosition ChartLib.PositionArg.null = (0, 0) ∧
    ChartLib.Chart.resolvePosition ChartLib.PositionArg.nonObject = (0, 0) ∧
    (∀ px py : ℚ,
      ChartLib.Chart.resolvePosition (ChartLib.PositionArg.obj px py) = (px, py)) ∧
    (∀ (pos : ChartLib.PositionArg) (marg : ChartLib.MarginsArg)
        (dims : Option ChartLib.Dimensions) (cw ch : ℚ),
      (ChartLib.Pie.constructorV4 pos marg dims cw ch).transform =
        ((ChartLib.Pie.constructorV4 pos marg dims cw ch).margins.left +
            (ChartLib.Pie.constructorV4 pos marg dims cw ch).width / 2,
          (ChartLib.Pie.constructorV4 pos marg dims cw ch).margins.top +
            (ChartLib.Pie.constructorV4 pos marg dims cw ch).height / 2) ∧
      (ChartLib.StarGlyph.constructorV4 pos marg dims cw ch).transform =
        ((ChartLib.StarGlyph.constructorV4 pos marg dims cw ch).margins.left +
            (ChartLib.StarGlyph.constructorV4 pos marg dims cw ch).width / 2,
          (ChartLib.StarGlyph.constructorV4 pos marg dims cw ch).margins.top +
            (ChartLib.StarGlyph.constructorV4 pos marg dims cw ch).height / 2)) := by
  exact ⟨fun pos marg dims cw ch => rfl, rfl, rfl, fun px py => rfl,
    fun pos marg dims cw ch => ⟨rfl, rfl⟩⟩

namespace ChartLib

namespace Correlation

/-- The value means[i] computed by Correlation.pearson (part_000 lines
172-176, part_004 lines 1786-1790): d3.mean of the i-th column.  A row is
read with row.getD i 0; on the datasets of the claims every row has
length above i, where getD agrees with JavaScript indexing. -/
def meanAt (dataset : List (List ℚ)) (i : ℕ) : ℚ :=
  d3mean (dataset.map (fun d => d.getD i 0))

/-- The local `covariance` of Correlation.pearson (part_000 line 183):
d3.sum of (d[i] - means[i]) * (d[j] - means[j]) over the rows. -/
def covariance (dataset : List (List ℚ)) (i j : ℕ) : ℚ :=
  d3sum (dataset.map (fun d =>
    (d.getD i 0 - meanAt dataset i) * (d.getD j 0 - meanAt dataset j)))

/-- The local `stdDeviationI` of Correlation.pearson (part_000 lines
184-185): d3.sum of (d[i] - means[i]) * (d[i] - means[i]) over the rows. -/
def stdDeviation (dataset : List (List ℚ)) (i : ℕ) : ℚ :=
  d3sum (dataset.map (fun d =>
    (d.getD i 0 - meanAt dataset i) * (d.getD i 0 - meanAt dataset i)))

/-- Correlation.pearson (part_000 lines 171-190, part_004 lines
1785-1804): the dataset[0].length by dataset[0].length table with entry
(i, j) equal to covariance / Math.sqrt(stdDeviationI * stdDeviationJ).
Math.sqrt is modelled as Real.sqrt on the real image of the rational
arithmetic. -/
noncomputable def pearson (dataset : List (List ℚ)) : List (List ℝ) :=
  (List.range dataset.headI.length).map (fun i =>
    (List.range dataset.headI.length).map (fun j =>
      ((covariance dataset i j : ℚ) : ℝ) /
        Real.sqrt (((stdDeviation dataset i : ℚ) : ℝ) *
          ((stdDeviation dataset j : ℚ) : ℝ))))

/-- A static pearson call as seen by the rest of the program:
Correlation.pearson is a static method whose body reads only its dataset
argument and the pure d3.mean / d3.sum helpers, so the program state σ
(charts, selections, DOM) is returned untouched and the table depends
only on the dataset. -/
noncomputable def pearsonCall {σ : Type} (st : σ) (dataset : List (List ℚ)) :
    σ × List (List ℝ) :=
  (st, pearson dataset)

end Correlation

/-- The mean of column c written from the words of the spec: the sum over
rows of the c-th value, divided by the number of rows. -/
def specColMean (dataset : List (List ℚ)) (c : ℕ) : ℚ :=
  (∑ k ∈ Finset.range dataset.length, (dataset.getD k []).getD c 0) /
    dataset.length

/-- The sum over rows k of (x[k][i] - mean_i) * (x[k][j] - mean_j),
written from the words of the spec; with j = i it is the sum of squared
deviations of column i. -/
def specDevSum (dataset : List (List ℚ)) (i j : ℕ) : ℚ :=
  ∑ k ∈ Finset.range dataset.length,
    ((dataset.getD k []).getD i 0 - specColMean dataset i) *
      ((dataset.getD k []).getD j 0 - specColMean dataset j)

/-- The Pearson correlation coefficient of columns i and j as the claim
states it: the sum of cross deviations divided by the square root of the
product of the two sums of squared deviations. -/
noncomputable def pearsonFormula (dataset : List (List ℚ)) (i j : ℕ) : ℝ :=
  ((specDevSum dataset i j : ℚ) : ℝ) /
    Real.sqrt (((specDevSum dataset i i : ℚ) : ℝ) *
      ((specDevSum dataset j j : ℚ) : ℝ))

theorem map_sum_eq_range_sum (l : List (List ℚ)) (f : List ℚ → ℚ) :
    (l.map f).sum = ∑ k ∈ Finset.range l.length, f (l.getD k []) := by
  induction l with
  | nil => simp
  | cons a t ih =>
    rw [List.map_cons, List.sum_cons, ih, List.length_cons,
      Finset.sum_range_succ']
    simp only [List.getD_cons_succ, List.getD_cons_zero]
    rw [add_comm]

theorem meanAt_eq_spec (dataset : List (List ℚ)) (i : ℕ) :
    Correlation.meanAt dataset i = specColMean dataset i := by
  unfold Correlation.meanAt d3mean specColMean
  rw [map_sum_eq_range_sum, List.length_map]

theorem covariance_eq_spec (dataset : List (List ℚ)) (i j : ℕ) :
    Correlation.covariance dataset i j = specDevSum dataset i j := by
  unfold Correlation.covariance d3sum specDevSum
  rw [map_sum_eq_range_sum]
  simp only [meanAt_eq_spec]

theorem stdDeviation_eq_spec (dataset : List (List ℚ)) (i : ℕ) :
    Correlation.stdDeviation dataset i = specDevSum dataset i i := by
  unfold Correlation.stdDeviation d3sum specDevSum
  rw [map_sum_eq_range_sum]
  simp only [meanAt_eq_spec]

theorem pearson_length (dataset : List (List ℚ)) :
    (Correlation.pearson dataset).length = dataset.headI.length := by
  simp [Correlation.pearson]

theorem pearson_row_length (dataset : List (List ℚ)) :
    ∀ row ∈ Correlation.pearson dataset,
      row.length = dataset.headI.length := by
  intro row hrow
  unfold Correlation.pearson at hrow
  rw [List.mem_map] at hrow
  obtain ⟨i, _, rfl⟩ := hrow
  simp

theorem pearson_entry (dataset : List (List ℚ)) (i j : ℕ)
    (hi : i < dataset.headI.length) (hj : j < dataset.headI.length) :
    ((Correlation.pearson dataset).getD i []).getD j 0 =
      ((Correlation.covariance dataset i j : ℚ) : ℝ) /
        Real.sqrt (((Correlation.stdDeviation dataset i : ℚ) : ℝ) *
          ((Correlation.stdDeviation dataset j : ℚ) : ℝ)) := by
  have houter : (Correlation.pearson dataset).getD i [] =
      (List.range dataset.headI.length).map (fun j =>
        ((Correlation.covariance dataset i j : ℚ) : ℝ) /
          Real.sqrt (((Correlation.stdDeviation dataset i : ℚ) : ℝ) *
            ((Correlation.stdDeviation dataset j : ℚ) : ℝ))) := by
    unfold Correlation.pearson
    rw [List.getD_eq_getElem?_getD, List.getElem?_map, List.getElem?_range hi]
    rfl
  rw [houter, List.getD_eq_getElem?_getD, List.getElem?_map,
    List.getElem?_range hj]
  rfl

theorem headI_length_eq (dataset : List (List ℚ)) (m : ℕ)
    (hne : dataset ≠ []) (hrows : ∀ row ∈ dataset, row.length = m) :
    dataset.headI.length = m := by
  obtain ⟨a, t, rfl⟩ := List.exists_cons_of_ne_nil hne
  exact hrows a (List.mem_cons_self a t)

theorem covariance_comm (dataset : List (List ℚ)) (i j : ℕ) :
    Correlation.covariance dataset i j = Correlation.covariance dataset j i := by
  unfold Correlation.covariance
  congr 1
  have hfun : (fun d : List ℚ =>
      (d.getD i 0 - Correlation.meanAt dataset i) *
        (d.getD j 0 - Correlation.meanAt dataset j)) =
      (fun d : List ℚ =>
      (d.getD j 0 - Correlation.meanAt dataset j) *
        (d.getD i 0 - Correlation.meanAt dataset i)) := by
    funext d
    ring
  rw [hfun]

theorem stdDeviation_nonneg (dataset : List (List ℚ)) (i : ℕ) :
    0 ≤ Correlation.stdDeviation dataset i := by
  unfold Correlation.stdDeviation d3sum
  apply List.sum_nonneg
  intro x hx
  rw [List.mem_map] at hx
  obtain ⟨d, _, rfl⟩ := hx
  exact mul_self_nonneg _

theorem stdDeviation_pos (dataset : List (List ℚ)) (i : ℕ)
    (h : ∃ r1 ∈ dataset, ∃ r2 ∈ dataset, r1.getD i 0 ≠ r2.getD i 0) :
    0 < Correlation.stdDeviation dataset i := by
  obtain ⟨r1, hr1, r2, hr2, hne⟩ := h
  rcases lt_or_eq_of_le (stdDeviation_nonneg dataset i) with hlt | heq
  · exact hlt
  · exfalso
    apply hne
    have hzero : ∀ x ∈ dataset.map (fun d : List ℚ =>
        (d.getD i 0 - Correlation.meanAt dataset i) *
          (d.getD i 0 - Correlation.meanAt dataset i)), x = 0 := by
      intro x hx
      have hxnn : ∀ y ∈ dataset.map (fun d : List ℚ =>
          (d.getD i 0 - Correlation.meanAt dataset i) *
            (d.getD i 0 - Correlation.meanAt dataset i)), 0 ≤ y := by
        intro y hy
        rw [List.mem_map] at hy
        obtain ⟨d, _, rfl⟩ := hy
        exact mul_self_nonneg _
      have hle := List.single_le_sum hxnn x hx
      have hsum : (dataset.map (fun d : List ℚ =>
          (d.getD i 0 - Correlation.meanAt dataset i) *
            (d.getD i 0 - Correlation.meanAt dataset i))).sum = 0 := by
        have : Correlation.stdDeviation dataset i = 0 := heq.symm
        unfold Correlation.stdDeviation d3sum at this
        exact this
      rw [hsum] at hle
      exact le_antisymm hle (hxnn x hx)
    have h1 : (r1.getD i 0 - Correlation.meanAt dataset i) *
        (r1.getD i 0 - Correlation.meanAt dataset i) = 0 :=
      hzero _ (List.mem_map_of_mem _ hr1)
    have h2 : (r2.getD i 0 - Correlation.meanAt dataset i) *
        (r2.getD i 0 - Correlation.meanAt dataset i) = 0 :=
      hzero _ (List.mem_map_of_mem _ hr2)
    have e1 : r1.getD i 0 = Correlation.meanAt dataset i :=
      sub_eq_zero.mp (mul_self_eq_zero.mp h1)
    have e2 : r2.getD i 0 = Correlation.meanAt dataset i :=
      sub_eq_zero.mp (mul_self_eq_zero.mp h2)
    rw [e1, e2]

end ChartLib

/-- C1: for every dataset that is a non-empty list of rows of equal length
m ≥ 1, where every column has at least two distinct values,
Correlation.pearson returns an m-by-m table whose entry at (i, j) is the
Pearson correlation coefficient of columns i and j: the sum over rows of
the cross deviations, divided by the square root of the product of the
sums of squared deviations of the two columns. -/
theorem correlation_pearson_matches_spec (dataset : List (List ℚ)) (m : ℕ)
    (hne : dataset ≠ []) (hm : 1 ≤ m)
    (hrows : ∀ row ∈ dataset, row.length = m)
    (hcols : ∀ c < m, ∃ r1 ∈ dataset, ∃ r2 ∈ dataset,
      r1.getD c 0 ≠ r2.getD c 0) :
    (ChartLib.Correlation.pearson dataset).length = m ∧
    (∀ row ∈ ChartLib.Correlation.pearson dataset, row.length = m) ∧
    ∀ i < m, ∀ j < m,
      ((ChartLib.Correlation.pearson dataset).getD i []).getD j 0 =
        ChartLib.pearsonFormula dataset i j := by
  have hhead := ChartLib.headI_length_eq dataset m hne hrows
  refine ⟨by rw [ChartLib.pearson_length, hhead], ?_, ?_⟩
  · intro row hrow
    rw [ChartLib.pearson_row_length dataset row hrow, hhead]
  · intro i hi j hj
    rw [ChartLib.pearson_entry dataset i j (by rw [hhead]; exact hi)
      (by rw [hhead]; exact hj)]
    unfold ChartLib.pearsonFormula
    rw [ChartLib.covariance_eq_spec, ChartLib.stdDeviation_eq_spec,
      ChartLib.stdDeviation_eq_spec]

/-- Witness for C1 on the dataset [[0, 0], [1, 1]] with m = 2. -/
theorem correlation_pearson_matches_spec_witness :
    (ChartLib.Correlation.pearson [[0, 0], [1, 1]]).length = 2 ∧
    (∀ row ∈ ChartLib.Correlation.pearson [[0, 0], [1, 1]], row.length = 2) ∧
    ∀ i < 2, ∀ j < 2,
      ((ChartLib.Correlation.pearson [[0, 0], [1, 1]]).getD i []).getD j 0 =
        ChartLib.pearsonFormula [[0, 0], [1, 1]] i j :=
  correlation_pearson_matches_spec [[0, 0], [1, 1]] 2 (by decide) (by decide)
    (by decide) (by decide)

/-- C2: on every dataset that is a non-empty list of rows of equal length
m ≥ 1 in which every column has at least two distinct values, the table
returned by Correlation.pearson is symmetric and every diagonal entry
equals 1. -/
theorem correlation_pearson_symm_diag_one (dataset : List (List ℚ)) (m : ℕ)
    (hne : dataset ≠ []) (hm : 1 ≤ m)
    (hrows : ∀ row ∈ dataset, row.length = m)
    (hcols : ∀ c < m, ∃ r1 ∈ dataset, ∃ r2 ∈ dataset,
      r1.getD c 0 ≠ r2.getD c 0) :
    (∀ i < m, ∀ j < m,
      ((ChartLib.Correlation.pearson dataset).getD i []).getD j 0 =
        ((ChartLib.Correlation.pearson dataset).getD j []).getD i 0) ∧
    ∀ i < m,
      ((ChartLib.Correlation.pearson dataset).getD i []).getD i 0 = 1 := by
  have hhead := ChartLib.headI_length_eq dataset m hne hrows
  constructor
  · intro i hi j hj
    rw [ChartLib.pearson_entry dataset i j (by rw [hhead]; exact hi)
        (by rw [hhead]; exact hj),
      ChartLib.pearson_entry dataset j i (by rw [hhead]; exact hj)
        (by rw [hhead]; exact hi),
      ChartLib.covariance_comm dataset i j, mul_comm]
  · intro i hi
    rw [ChartLib.pearson_entry dataset i i (by rw [hhead]; exact hi)
      (by rw [hhead]; exact hi)]
    have hcovself : ChartLib.Correlation.covariance dataset i i =
        ChartLib.Correlation.stdDeviation dataset i := rfl
    rw [hcovself]
    have hpos : 0 < ChartLib.Correlation.stdDeviation dataset i :=
      ChartLib.stdDeviation_pos dataset i (hcols i hi)
    have hposR : (0 : ℝ) < ((ChartLib.Correlation.stdDeviation dataset i : ℚ) : ℝ) := by
      exact_mod_cast hpos
    rw [Real.sqrt_mul_self (le_of_lt hposR)]
    exact div_self (ne_of_gt hposR)

/-- Witness for C2 on the dataset [[0, 0], [1, 1]] with m = 2. -/
theorem correlation_pearson_symm_diag_one_witness :
    (∀ i < 2, ∀ j < 2,
      ((ChartLib.Correlation.pearson [[0, 0], [1, 1]]).getD i []).getD j 0 =
        ((ChartLib.Correlation.pearson [[0, 0], [1, 1]]).getD j []).getD i 0) ∧
    ∀ i < 2,
      ((ChartLib.Correlation.pearson [[0, 0], [1, 1]]).getD i []).getD i 0 = 1 :=
  correlation_pearson_symm_diag_one [[0, 0], [1, 1]] 2 (by decide) (by decide)
    (by decide) (by decide)

/-- C8: Correlation.pearson is independent of rendering and deterministic.
Modelled as pearsonCall: a call in any program state s returns s unchanged
together with a table that is a function of the dataset alone, so two
calls on equal datasets in any two program states return equal tables. -/
theorem correlation_pearson_state_independent {σ : Type} (s1 s2 : σ)
    (dataset : List (List ℚ)) :
    (ChartLib.Correlation.pearsonCall s1 dataset).1 = s1 ∧
    (ChartLib.Correlation.pearsonCall s1 dataset).2 =
      (ChartLib.Correlation.pearsonCall s2 dataset).2 ∧
    (ChartLib.Correlation.pearsonCall s1 dataset).2 =
      ChartLib.Correlation.pearson dataset :=
  ⟨rfl, rfl, rfl⟩

namespace ChartLib

theorem d3min_spec (l : List (Option ℚ)) :
    (d3min l = none → ∀ v : ℚ, some v ∉ l) ∧
    (∀ r : ℚ, d3min l = some r → some r ∈ l ∧ ∀ v : ℚ, some v ∈ l → r ≤ v) := by
  induction l with
  | nil =>
    refine ⟨fun _ v hv => by simp at hv, fun r hr => by simp [d3min] at hr⟩
  | cons a t ih =>
    rcases hmt : d3min t with _ | u
    · have htail := ih.1 hmt
      rcases a with _ | w
      · have hl : d3min (none :: t) = none := by
          show optMin none (d3min t) = none
          rw [hmt]
          rfl
        refine ⟨fun _ v hv => ?_, fun r hr => ?_⟩
        · rcases List.mem_cons.mp hv with h1 | h2
          · exact Option.noConfusion h1
          · exact htail v h2
        · rw [hl] at hr
          exact Option.noConfusion hr
      · have hl : d3min (some w :: t) = some w := by
          show optMin (some w) (d3min t) = some w
          rw [hmt]
          rfl
        refine ⟨fun h0 => ?_, fun r hr => ?_⟩
        · rw [hl] at h0
          exact Option.noConfusion h0
        · rw [hl] at hr
          obtain rfl : w = r := Option.some.inj hr
          refine ⟨List.mem_cons_self _ _, fun v hv => ?_⟩
          rcases List.mem_cons.mp hv with h1 | h2
          · rw [Option.some.inj h1]
          · exact absurd h2 (htail v)
    · have hspec := ih.2 u hmt
      rcases a with _ | w
      · have hl : d3min (none :: t) = some u := by
          show optMin none (d3min t) = some u
          rw [hmt]
          rfl
        refine ⟨fun h0 => ?_, fun r hr => ?_⟩
        · rw [hl] at h0
          exact Option.noConfusion h0
        · rw [hl] at hr
          obtain rfl : u = r := Option.some.inj hr
          refine ⟨List.mem_cons_of_mem _ hspec.1, fun v hv => ?_⟩
          rcases List.mem_cons.mp hv with h1 | h2
          · exact Option.noConfusion h1
          · exact hspec.2 v h2
      · have hl : d3min (some w :: t) = some (min w u) := by
          show optMin (some w) (d3min t) = some (min w u)
          rw [hmt]
          rfl
        refine ⟨fun h0 => ?_, fun r hr => ?_⟩
        · rw [hl] at h0
          exact Option.noConfusion h0
        · rw [hl] at hr
          obtain rfl : min w u = r := Option.some.inj hr
          constructor
          · rcases le_total w u with hwu | huw
            · rw [min_eq_left hwu]
              exact List.mem_cons_self _ _
            · rw [min_eq_right huw]
              exact List.mem_cons_of_mem _ hspec.1
          · intro v hv
            rcases List.mem_cons.mp hv with h1 | h2
            · rw [← Option.some.inj h1]
              exact min_le_left v u
            · exact le_trans (min_le_right w u) (hspec.2 v h2)

theorem d3max_spec (l : List (Option ℚ)) :
    (d3max l = none → ∀ v : ℚ, some v ∉ l) ∧
    (∀ r : ℚ, d3max l = some r → some r ∈ l ∧ ∀ v : ℚ, some v ∈ l → v ≤ r) := by
  induction l with
  | nil =>
    refine ⟨fun _ v hv => by simp at hv, fun r hr => by simp [d3max] at hr⟩
  | cons a t ih =>
    rcases hmt : d3max t with _ | u
    · have htail := ih.1 hmt
      rcases a with _ | w
      · have hl : d3max (none :: t) = none := by
          show optMax none (d3max t) = none
          rw [hmt]
          rfl
        refine ⟨fun _ v hv => ?_, fun r hr => ?_⟩
        · rcases List.mem_cons.mp hv with h1 | h2
          · exact Option.noConfusion h1
          · exact htail v h2
        · rw [hl] at hr
          exact Option.noConfusion hr
      · have hl : d3max (some w :: t) = some w := by
          show optMax (some w) (d3max t) = some w
          rw [hmt]
          rfl
        refine ⟨fun h0 => ?_, fun r hr => ?_⟩
        · rw [hl] at h0
          exact Option.noConfusion h0
        · rw [hl] at hr
          obtain rfl : w = r := Option.some.inj hr
          refine ⟨List.mem_cons_self _ _, fun v hv => ?_⟩
          rcases List.mem_cons.mp hv with h1 | h2
          · rw [Option.some.inj h1]
          · exact absurd h2 (htail v)
    · have hspec := ih.2 u hmt
      rcases a with _ | w
      · have hl : d3max (none :: t) = some u := by
          show optMax none (d3max t) = some u
          rw [hmt]
          rfl
        refine ⟨fun h0 => ?_, fun r hr => ?_⟩
        · rw [hl] at h0
          exact Option.noConfusion h0
        · rw [hl] at hr
          obtain rfl : u = r := Option.some.inj hr
          refine ⟨List.mem_cons_of_mem _ hspec.1, fun v hv => ?_⟩
          rcases List.mem_cons.mp hv with h1 | h2
          · exact Option.noConfusion h1
          · exact hspec.2 v h2
      · have hl : d3max (some w :: t) = some (max w u) := by
          show optMax (some w) (d3max t) = some (max w u)
          rw [hmt]
          rfl
        refine ⟨fun h0 => ?_, fun r hr => ?_⟩
        · rw [hl] at h0
          exact Option.noConfusion h0
        · rw [hl] at hr
          obtain rfl : max w u = r := Option.some.inj hr
          constructor
          · rcases le_total w u with hwu | huw
            · rw [max_eq_right hwu]
              exact List.mem_cons_of_mem _ hspec.1
            · rw [max_eq_left huw]
              exact List.mem_cons_self _ _
          · intro v hv
            rcases List.mem_cons.mp hv with h1 | h2
            · rw [← Option.some.inj h1]
              exact le_max_left v u
            · exact le_trans (hspec.2 v h2) (le_max_right w u)

namespace Segments

/-- The shared yScale-domain computation of Segments.setSegments,
Segments.setDots and Segments.setRanges (part_004 lines 708-713, 749-753,
792-797): per-row extents are collected, the current yScale domain
[dom.1, dom.2] is pushed onto the list, and the new domain is
[d3.min of the lower entries, d3.max of the upper entries];
Chart.adjustScaleDomain then installs that (always truthy) domain. -/
def newDomainFrom (extents : List (Option ℚ × Option ℚ)) (dom : ℚ × ℚ) :
    Option ℚ × Option ℚ :=
  let datasetExtent := extents ++ [(some dom.1, some dom.2)]
  (d3min (datasetExtent.map Prod.fst), d3max (datasetExtent.map Prod.snd))

/-- The new yScale domain computed by Segments.setSegments (part_004
lines 708-713): row extents come from d3.extent on each row. -/
def setSegmentsDomain (dataset : List (List ℚ)) (dom : ℚ × ℚ) :
    Option ℚ × Option ℚ :=
  newDomainFrom (dataset.map (fun d => d3extent d)) dom

/-- The new yScale domain computed by Segments.setDots (part_004 lines
749-753): identical to the setSegments computation. -/
def setDotsDomain (dataset : List (List ℚ)) (dom : ℚ × ℚ) :
    Option ℚ × Option ℚ :=
  newDomainFrom (dataset.map (fun d => d3extent d)) dom

/-- The new yScale domain computed by Segments.setRanges (part_004 lines
792-797): each row of [low, high] pairs contributes
[d3.min of the low entries, d3.max of the high entries]. -/
def setRangesDomain (dataset : List (List (ℚ × ℚ))) (dom : ℚ × ℚ) :
    Option ℚ × Option ℚ :=
  newDomainFrom (dataset.map (fun d =>
    (d3min (d.map (fun p => some p.1)), d3max (d.map (fun p => some p.2))))) dom

end Segments

theorem newDomainFrom_spec (extents : List (Option ℚ × Option ℚ))
    (dom : ℚ × ℚ) :
    ∃ lo hi, Segments.newDomainFrom extents dom = (some lo, some hi) ∧
      lo ≤ dom.1 ∧ dom.2 ≤ hi ∧
      (∀ e ∈ extents, ∀ v : ℚ, e.1 = some v → lo ≤ v) ∧
      (∀ e ∈ extents, ∀ v : ℚ, e.2 = some v → v ≤ hi) ∧
      (lo = dom.1 ∨ ∃ e ∈ extents, e.1 = some lo) ∧
      (hi = dom.2 ∨ ∃ e ∈ extents, e.2 = some hi) := by
  have hmemlo : some dom.1 ∈ (extents ++ [(some dom.1, some dom.2)]).map Prod.fst := by
    simp
  have hmemhi : some dom.2 ∈ (extents ++ [(some dom.1, some dom.2)]).map Prod.snd := by
    simp
  rcases hlo : d3min ((extents ++ [(some dom.1, some dom.2)]).map Prod.fst) with _ | lo
  · exact absurd hmemlo ((d3min_spec _).1 hlo dom.1)
  rcases hhi : d3max ((extents ++ [(some dom.1, some dom.2)]).map Prod.snd) with _ | hi
  · exact absurd hmemhi ((d3max_spec _).1 hhi dom.2)
  have hlospec := (d3min_spec _).2 lo hlo
  have hhispec := (d3max_spec _).2 hi hhi
  refine ⟨lo, hi, ?_, ?_, ?_, ?_, ?_, ?_, ?_⟩
  · show (d3min _, d3max _) = (some lo, some hi)
    rw [hlo, hhi]
  · exact hlospec.2 dom.1 hmemlo
  · exact hhispec.2 dom.2 hmemhi
  · intro e he v hv
    apply hlospec.2 v
    rw [List.map_append, List.mem_append]
    exact Or.inl (hv ▸ List.mem_map_of_mem Prod.fst he)
  · intro e he v hv
    apply hhispec.2 v
    rw [List.map_append, List.mem_append]
    exact Or.inl (hv ▸ List.mem_map_of_mem Prod.snd he)
  · have hmem := hlospec.1
    rw [List.map_append, List.mem_append] at hmem
    rcases hmem with h1 | h2
    · right
      rw [List.mem_map] at h1
      obtain ⟨e, he, hfst⟩ := h1
      exact ⟨e, he, hfst⟩
    · left
      simp at h2
      exact h2
  · have hmem := hhispec.1
    rw [List.map_append, List.mem_append] at hmem
    rcases hmem with h1 | h2
    · right
      rw [List.mem_map] at h1
      obtain ⟨e, he, hsnd⟩ := h1
      exact ⟨e, he, hsnd⟩
    · left
      simp at h2
      exact h2

theorem d3extent_fst_le (row : List ℚ) (v : ℚ) (hv : v ∈ row) :
    ∃ mn, (d3extent row).1 = some mn ∧ mn ≤ v := by
  have hmem : some v ∈ row.map some := List.mem_map_of_mem some hv
  rcases h : d3min (row.map some) with _ | mn
  · exact absurd hmem ((d3min_spec _).1 h v)
  · exact ⟨mn, h, ((d3min_spec _).2 mn h).2 v hmem⟩

theorem d3extent_snd_le (row : List ℚ) (v : ℚ) (hv : v ∈ row) :
    ∃ mx, (d3extent row).2 = some mx ∧ v ≤ mx := by
  have hmem : some v ∈ row.map some := List.mem_map_of_mem some hv
  rcases h : d3max (row.map some) with _ | mx
  · exact absurd hmem ((d3max_spec _).1 h v)
  · exact ⟨mx, h, ((d3max_spec _).2 mx h).2 v hmem⟩

theorem d3extent_fst_mem (row : List ℚ) (mn : ℚ)
    (h : (d3extent row).1 = some mn) : mn ∈ row := by
  have := ((d3min_spec (row.map some)).2 mn h).1
  rw [List.mem_map] at this
  obtain ⟨v, hv, he⟩ := this
  rw [← Option.some.inj he]
  exact hv

theorem d3extent_snd_mem (row : List ℚ) (mx : ℚ)
    (h : (d3extent row).2 = some mx) : mx ∈ row := by
  have := ((d3max_spec (row.map some)).2 mx h).1
  rw [List.mem_map] at this
  obtain ⟨v, hv, he⟩ := this
  rw [← Option.some.inj he]
  exact hv

end ChartLib

/-- C3: every call of Segments.setSegments, Segments.setDots or
Segments.setRanges with a non-empty dataset replaces the y-scale domain
[dom.1, dom.2] with the smallest interval containing both the previous
domain and the extent of the new dataset: the new bounds bound the
previous bounds and every dataset value, and each new bound is either a
previous bound or attained by the dataset.  In particular the new domain
contains the previous domain, so the shared rescaling never shrinks the
range earlier series were drawn against. -/
theorem segments_set_ops_expand_y_domain :
    (∀ (dataset : List (List ℚ)) (dom : ℚ × ℚ), dataset ≠ [] →
      ∃ lo hi,
        ChartLib.Segments.setSegmentsDomain dataset dom = (some lo, some hi) ∧
        ChartLib.Segments.setDotsDomain dataset dom = (some lo, some hi) ∧
        lo ≤ dom.1 ∧ dom.2 ≤ hi ∧
        (∀ row ∈ dataset, ∀ v ∈ row, lo ≤ v ∧ v ≤ hi) ∧
        (lo = dom.1 ∨ ∃ row ∈ dataset, lo ∈ row) ∧
        (hi = dom.2 ∨ ∃ row ∈ dataset, hi ∈ row)) ∧
    (∀ (dataset : List (List (ℚ × ℚ))) (dom : ℚ × ℚ), dataset ≠ [] →
      (∀ row ∈ dataset, ∀ p ∈ row, (p : ℚ × ℚ).1 ≤ p.2) →
      ∃ lo hi,
        ChartLib.Segments.setRangesDomain dataset dom = (some lo, some hi) ∧
        lo ≤ dom.1 ∧ dom.2 ≤ hi ∧
        (∀ row ∈ dataset, ∀ p ∈ row,
          lo ≤ (p : ℚ × ℚ).1 ∧ lo ≤ p.2 ∧ p.1 ≤ hi ∧ p.2 ≤ hi) ∧
        (lo = dom.1 ∨ ∃ row ∈ dataset, ∃ p ∈ row, (p : ℚ × ℚ).1 = lo) ∧
        (hi = dom.2 ∨ ∃ row ∈ dataset, ∃ p ∈ row, (p : ℚ × ℚ).2 = hi)) := by
  constructor
  · intro dataset dom _
    obtain ⟨lo, hi, heq, hlo1, hhi1, hlob, hhib, hloa, hhia⟩ :=
      ChartLib.newDomainFrom_spec (dataset.map (fun d => ChartLib.d3extent d)) dom
    refine ⟨lo, hi, heq, heq, hlo1, hhi1, ?_, ?_, ?_⟩
    · intro row hrow v hv
      constructor
      · obtain ⟨mn, hmn, hmnle⟩ := ChartLib.d3extent_fst_le row v hv
        exact le_trans (hlob _ (List.mem_map_of_mem _ hrow) mn hmn) hmnle
      · obtain ⟨mx, hmx, hmxle⟩ := ChartLib.d3extent_snd_le row v hv
        exact le_trans hmxle (hhib _ (List.mem_map_of_mem _ hrow) mx hmx)
    · rcases hloa with h | ⟨e, he, hfst⟩
      · exact Or.inl h
      · right
        rw [List.mem_map] at he
        obtain ⟨row, hrow, rfl⟩ := he
        exact ⟨row, hrow, ChartLib.d3extent_fst_mem row lo hfst⟩
    · rcases hhia with h | ⟨e, he, hsnd⟩
      · exact Or.inl h
      · right
        rw [List.mem_map] at he
        obtain ⟨row, hrow, rfl⟩ := he
        exact ⟨row, hrow, ChartLib.d3extent_snd_mem row hi hsnd⟩
  · intro dataset dom _ hord
    obtain ⟨lo, hi, heq, hlo1, hhi1, hlob, hhib, hloa, hhia⟩ :=
      ChartLib.newDomainFrom_spec (dataset.map (fun d =>
        (ChartLib.d3min (d.map (fun p => some p.1)),
          ChartLib.d3max (d.map (fun p => some p.2))))) dom
    refine ⟨lo, hi, heq, hlo1, hhi1, ?_, ?_, ?_⟩
    · intro row hrow p hp
      have hlop1 : lo ≤ p.1 := by
        have hmem : some p.1 ∈ row.map (fun p : ℚ × ℚ => some p.1) :=
          List.mem_map_of_mem _ hp
        rcases h1 : ChartLib.d3min (row.map (fun p : ℚ × ℚ => some p.1)) with _ | mn
        · exact absurd hmem ((ChartLib.d3min_spec _).1 h1 p.1)
        · exact le_trans (hlob _ (List.mem_map_of_mem _ hrow) mn h1)
            (((ChartLib.d3min_spec _).2 mn h1).2 p.1 hmem)
      have hp2hi : p.2 ≤ hi := by
        have hmem : some p.2 ∈ row.map (fun p : ℚ × ℚ => some p.2) :=
          List.mem_map_of_mem _ hp
        rcases h2 : ChartLib.d3max (row.map (fun p : ℚ × ℚ => some p.2)) with _ | mx
        · exact absurd hmem ((ChartLib.d3max_spec _).1 h2 p.2)
        · exact le_trans (((ChartLib.d3max_spec _).2 mx h2).2 p.2 hmem)
            (hhib _ (List.mem_map_of_mem _ hrow) mx h2)
      have hord1 := hord row hrow p hp
      exact ⟨hlop1, le_trans hlop1 hord1, le_trans hord1 hp2hi, hp2hi⟩
    · rcases hloa with h | ⟨e, he, hfst⟩
      · exact Or.inl h
      · right
        rw [List.mem_map] at he
        obtain ⟨row, hrow, rfl⟩ := he
        have := ((ChartLib.d3min_spec (row.map (fun p : ℚ × ℚ => some p.1))).2 lo hfst).1
        rw [List.mem_map] at this
        obtain ⟨p, hp, hpe⟩ := this
        exact ⟨row, hrow, p, hp, Option.some.inj hpe⟩
    · rcases hhia with h | ⟨e, he, hsnd⟩
      · exact Or.inl h
      · right
        rw [List.mem_map] at he
        obtain ⟨row, hrow, rfl⟩ := he
        have := ((ChartLib.d3max_spec (row.map (fun p : ℚ × ℚ => some p.2))).2 hi hsnd).1
        rw [List.mem_map] at this
        obtain ⟨p, hp, hpe⟩ := this
        exact ⟨row, hrow, p, hp, Option.some.inj hpe⟩

/-- Witness for C3: setSegments and setDots on the dataset [[1, 5], [2, 8]]
and setRanges on [[(1, 2), (0, 4)]], each over the previous domain (0, 3). -/
theorem segments_set_ops_expand_y_domain_witness :
    (∃ lo hi,
      ChartLib.Segments.setSegmentsDomain [[1, 5], [2, 8]] (0, 3) = (some lo, some hi) ∧
      ChartLib.Segments.setDotsDomain [[1, 5], [2, 8]] (0, 3) = (some lo, some hi) ∧
      lo ≤ (0 : ℚ) ∧ (3 : ℚ) ≤ hi ∧
      (∀ row ∈ ([[1, 5], [2, 8]] : List (List ℚ)), ∀ v ∈ row, lo ≤ v ∧ v ≤ hi) ∧
      (lo = 0 ∨ ∃ row ∈ ([[1, 5], [2, 8]] : List (List ℚ)), lo ∈ row) ∧
      (hi = 3 ∨ ∃ row ∈ ([[1, 5], [2, 8]] : List (List ℚ)), hi ∈ row)) ∧
    ∃ lo hi,
      ChartLib.Segments.setRangesDomain [[(1, 2), (0, 4)]] (0, 3) = (some lo, some hi) ∧
      lo ≤ (0 : ℚ) ∧ (3 : ℚ) ≤ hi ∧
      (∀ row ∈ ([[(1, 2), (0, 4)]] : List (List (ℚ × ℚ))), ∀ p ∈ row,
        lo ≤ (p : ℚ × ℚ).1 ∧ lo ≤ p.2 ∧ p.1 ≤ hi ∧ p.2 ≤ hi) ∧
      (lo = 0 ∨ ∃ row ∈ ([[(1, 2), (0, 4)]] : List (List (ℚ × ℚ))),
        ∃ p ∈ row, (p : ℚ × ℚ).1 = lo) ∧
      (hi = 3 ∨ ∃ row ∈ ([[(1, 2), (0, 4)]] : List (List (ℚ × ℚ))),
        ∃ p ∈ row, (p : ℚ × ℚ).2 = hi) :=
  ⟨segments_set_ops_expand_y_domain.1 [[1, 5], [2, 8]] (0, 3) (by decide),
    segments_set_ops_expand_y_domain.2 [[(1, 2), (0, 4)]] (0, 3) (by decide)
      (by decide)⟩

namespace ChartLib

/-- A d3 scale as far as the accessor methods observe it: its domain and
range arrays (value semantics; an in-place domain() call becomes a field
update). -/
structure Scale where
  domain : List ℚ
  range : List ℚ
  deriving DecidableEq

/-- The scale fields of a Segments chart. -/
structure SegmentsScales where
  xScale : Scale
  xAxisScale : Scale
  yScale : Scale
  deriving DecidableEq

/-- The scale fields of a Histogram chart. -/
structure HistogramScales where
  xScale : Scale
  xAxisScale : Scale
  deriving DecidableEq

/-- The colorScheme field of a Correlation chart; scheme values
(d3 interpolators) are abstracted by V. -/
structure CorrelationState (V : Type) where
  colorScheme : V

namespace Segments

/-- The scales set up by the Segments constructor (part_004 lines
533-546): _xScale is a linear scale (default domain [0, 1]) with range
[0, width]; _xAxisScale an ordinal scale (default domain []) with range
[0, width]; _yScale a linear scale with range [height, 0]. -/
def initScales (width height : ℚ) : SegmentsScales :=
  { xScale := ⟨[0, 1], [0, width]⟩
    xAxisScale := ⟨[], [0, width]⟩
    yScale := ⟨[0, 1], [height, 0]⟩ }

/-- The setter branch of Segments.xAxisScale (part_004 lines 596-600):
stores the scale in _xAxisScale, sets _xScale's domain to
[0, scale.domain().length - 1], re-renders the axis, and returns this
(modelled as the updated state). -/
def xAxisScaleSet (st : SegmentsScales) (scale : Scale) : SegmentsScales :=
  { st with
    xAxisScale := scale
    xScale := { st.xScale with
      domain := [0, (scale.domain.length : ℚ) - 1] } }

/-- The getter branch of Segments.xAxisScale (part_004 line 602): the
source returns this._xScale. -/
def xAxisScaleGet (st : SegmentsScales) : Scale := st.xScale

/-- The setter branch of Segments.yScale (part_004 lines 612-615). -/
def yScaleSet (st : SegmentsScales) (scale : Scale) : SegmentsScales :=
  { st with yScale := scale }

/-- The getter branch of Segments.yScale (part_004 line 617). -/
def yScaleGet (st : SegmentsScales) : Scale := st.yScale

end Segments

namespace Histogram

/-- The setter branch of Histogram.xAxisScale (part_003 lines 64-71):
stores the scale in _xAxisScale and rebuilds _xScale's domain and range
from it (range entries read with getD, standing for JavaScript indexing
on the in-range accesses of the claims). -/
def xAxisScaleSet (st : HistogramScales) (scale : Scale) : HistogramScales :=
  { st with
    xAxisScale := scale
    xScale := ⟨[0, (scale.domain.length : ℚ) - 3],
      [scale.range.getD 1 0, scale.range.getD (scale.domain.length - 2) 0]⟩ }

/-- The getter branch of Histogram.xAxisScale (part_003 line 73): returns
this._xAxisScale. -/
def xAxisScaleGet (st : HistogramScales) : Scale := st.xAxisScale

end Histogram

namespace Correlation

/-- The setter branch of Correlation.colorScheme (part_000 lines 72-74):
stores the scheme and returns this (modelled as the updated state). -/
def colorSchemeSet {V : Type} (st : CorrelationState V) (scheme : V) :
    CorrelationState V :=
  { colorScheme := scheme }

/-- The getter branch of Correlation.colorScheme (part_000 line 76). -/
def colorSchemeGet {V : Type} (st : CorrelationState V) : V :=
  st.colorScheme

end Correlation

end ChartLib

/-- C6 is a code bug in Segments.xAxisScale: the setter stores its
argument in _xAxisScale as the claim (and the method's own doc comment)
says, but the no-argument getter returns _xScale, a different field, so
get-after-set does not return the stored scale.  At the failing input
below it returns the internal linear scale with domain [0, 2] instead of
the ordinal scale with domain [3, 7, 9] that was stored.  The claimed
store/return law does hold for the other cited pairs
(Correlation.colorScheme, Histogram.xAxisScale, Segments.yScale). -/
theorem segments_xAxisScale_getter_mismatch :
    (ChartLib.Segments.xAxisScaleSet (ChartLib.Segments.initScales 100 50)
        ⟨[3, 7, 9], [0, 100]⟩).xAxisScale = ⟨[3, 7, 9], [0, 100]⟩ ∧
    ChartLib.Segments.xAxisScaleGet
        (ChartLib.Segments.xAxisScaleSet (ChartLib.Segments.initScales 100 50)
          ⟨[3, 7, 9], [0, 100]⟩) ≠ ⟨[3, 7, 9], [0, 100]⟩ ∧
    ChartLib.Segments.xAxisScaleGet
        (ChartLib.Segments.xAxisScaleSet (ChartLib.Segments.initScales 100 50)
          ⟨[3, 7, 9], [0, 100]⟩) = ⟨[0, 2], [0, 100]⟩ ∧
    (∀ (st : ChartLib.CorrelationState ℚ) (v : ℚ),
      ChartLib.Correlation.colorSchemeGet
        (ChartLib.Correlation.colorSchemeSet st v) = v) ∧
    (∀ (st : ChartLib.HistogramScales) (s : ChartLib.Scale),
      ChartLib.Histogram.xAxisScaleGet (ChartLib.Histogram.xAxisScaleSet st s) = s) ∧
    (∀ (st : ChartLib.SegmentsScales) (s : ChartLib.Scale),
      ChartLib.Segments.yScaleGet (ChartLib.Segments.yScaleSet st s) = s) := by
  refine ⟨rfl, ?_, ?_, fun st v => rfl, fun st s => rfl, fun st s => rfl⟩
  · simp [ChartLib.Segments.xAxisScaleGet, ChartLib.Segments.xAxisScaleSet,
      ChartLib.Segments.initScales, ChartLib.Scale.mk.injEq]
  · simp only [ChartLib.Segments.xAxisScaleGet, ChartLib.Segments.xAxisScaleSet,
      ChartLib.Segments.initScales, ChartLib.Scale.mk.injEq]
    norm_num

namespace ChartLib

namespace StarGlyph

/-- The mutation StarGlyph.setData performs on the caller's dataset
(part_004 line 1543): dataset.push(dataset[0]) appends the first value so
the polygon path closes; headI is JavaScript dataset[0] on the non-empty
arrays of the claim.  The returned list is the value the caller's array
holds after the call. -/
def setDataPush (dataset : List ℚ) : List ℚ := dataset ++ [dataset.headI]

end StarGlyph

end ChartLib

/-- C9: StarGlyph.setData mutates the caller's dataset array: after the
call on a non-empty dataset of length n, the array has length n + 1 and
its last element equals its first element, so a later call with the same
array operates on the grown array. -/
theorem starglyph_setdata_grows_dataset (dataset : List ℚ)
    (h : dataset ≠ []) :
    (ChartLib.StarGlyph.setDataPush dataset).length = dataset.length + 1 ∧
    (ChartLib.StarGlyph.setDataPush dataset).getLast? = some dataset.headI ∧
    dataset.head? = some dataset.headI := by
  refine ⟨by simp [ChartLib.StarGlyph.setDataPush], ?_, ?_⟩
  · exact List.getLast?_concat dataset
  · obtain ⟨a, t, rfl⟩ := List.exists_cons_of_ne_nil h
    rfl

/-- Witness for C9 on the dataset [3, 1, 2]: the grown array [3, 1, 2, 3]
has length 4 and its last element 3 equals its first element. -/
theorem starglyph_setdata_grows_dataset_witness :
    (ChartLib.StarGlyph.setDataPush [3, 1, 2]).length = 3 + 1 ∧
    (ChartLib.StarGlyph.setDataPush [3, 1, 2]).getLast? =
      some (([3, 1, 2] : List ℚ)).headI ∧
    ([3, 1, 2] : List ℚ).head? = some (([3, 1, 2] : List ℚ)).headI :=
  starglyph_setdata_grows_dataset [3, 1, 2] (by decide)

namespace ChartLib

/-- A JavaScript object used as an attributes dictionary: field names map
to a value or to null/undefined (none).  Attribute values (closures,
strings, numbers) are abstracted by V. -/
def AttrObj (V : Type) := String → Option V

namespace Chart

/-- Chart.addIfNull (src/Chart.js lines 100-102, part_004 lines 326-328):
array[field] = value runs only when array[field] == null, which in
JavaScript matches both null and undefined (none here); a caller-supplied
non-null entry is left unchanged. -/
def addIfNull {V : Type} (a : AttrObj V) (field : String) (value : V) :
    AttrObj V :=
  fun f => if f = field then some ((a field).getD value) else a f

/-- A plain JavaScript assignment attributes[field] = value, used for the
mandatory class attribute. -/
def setAttr {V : Type} (a : AttrObj V) (field : String) (value : V) :
    AttrObj V :=
  fun f => if f = field then some value else a f

end Chart

namespace Scatterplot

/-- The mandatory-attributes prefix of Scatterplot.setData (part_004
lines 1210-1216): addIfNull id, unconditional class assignment, then
addIfNull cx, cy and r, in source order. -/
def setDataAttrs {V : Type} (a : AttrObj V) (idV classV cxV cyV rV : V) :
    AttrObj V :=
  Chart.addIfNull (Chart.addIfNull (Chart.addIfNull
    (Chart.setAttr (Chart.addIfNull a "id" idV) "class" classV)
    "cx" cxV) "cy" cyV) "r" rV

end Scatterplot

namespace Histogram

/-- The mandatory-attributes prefix of Histogram.setData (part_004 lines
478-484): addIfNull id, unconditional class assignment, then addIfNull
x, y, width and height, in source order. -/
def setDataAttrs {V : Type} (a : AttrObj V) (idV classV xV yV wV hV : V) :
    AttrObj V :=
  Chart.addIfNull (Chart.addIfNull (Chart.addIfNull (Chart.addIfNull
    (Chart.setAttr (Chart.addIfNull a "id" idV) "class" classV)
    "x" xV) "y" yV) "width" wV) "height" hV

end Histogram

/-- A sample caller-supplied attributes object for the C10 witness: cx is
supplied (99), every other field is absent. -/
def sampleAttrs : AttrObj ℚ := fun f => if f = "cx" then some 99 else none

end ChartLib

/-- C10: the set-data operations write their mandatory defaults into the
caller-supplied attributes object: the class attribute is unconditionally
overwritten with the element class of the chart even when the caller
supplied one, every default installed through Chart.addIfNull (id, cx,
cy, r for Scatterplot; id, x, y, width, height for Histogram) is written
only when the caller's entry is null or undefined and a caller-supplied
non-null value is kept, and fields outside the mandatory set are
untouched. -/
theorem setdata_attribute_defaults {V : Type} (a : ChartLib.AttrObj V)
    (idV classV cxV cyV rV xV yV wV hV : V) :
    (ChartLib.Scatterplot.setDataAttrs a idV classV cxV cyV rV "class" =
        some classV ∧
      ChartLib.Scatterplot.setDataAttrs a idV classV cxV cyV rV "id" =
        some ((a "id").getD idV) ∧
      ChartLib.Scatterplot.setDataAttrs a idV classV cxV cyV rV "cx" =
        some ((a "cx").getD cxV) ∧
      ChartLib.Scatterplot.setDataAttrs a idV classV cxV cyV rV "cy" =
        some ((a "cy").getD cyV) ∧
      ChartLib.Scatterplot.setDataAttrs a idV classV cxV cyV rV "r" =
        some ((a "r").getD rV) ∧
      ∀ f : String, f ≠ "id" → f ≠ "class" → f ≠ "cx" → f ≠ "cy" →
        f ≠ "r" →
        ChartLib.Scatterplot.setDataAttrs a idV classV cxV cyV rV f = a f) ∧
    (ChartLib.Histogram.setDataAttrs a idV classV xV yV wV hV "class" =
        some classV ∧
      ChartLib.Histogram.setDataAttrs a idV classV xV yV wV hV "id" =
        some ((a "id").getD idV) ∧
      ChartLib.Histogram.setDataAttrs a idV classV xV yV wV hV "x" =
        some ((a "x").getD xV) ∧
      ChartLib.Histogram.setDataAttrs a idV classV xV yV wV hV "y" =
        some ((a "y").getD yV) ∧
      ChartLib.Histogram.setDataAttrs a idV classV xV yV wV hV "width" =
        some ((a "width").getD wV) ∧
      ChartLib.Histogram.setDataAttrs a idV classV xV yV wV hV "height" =
        some ((a "height").getD hV) ∧
      ∀ f : String, f ≠ "id" → f ≠ "class" → f ≠ "x" → f ≠ "y" →
        f ≠ "width" → f ≠ "height" →
        ChartLib.Histogram.setDataAttrs a idV classV xV yV wV hV f = a f) := by
  unfold ChartLib.Scatterplot.setDataAttrs ChartLib.Histogram.setDataAttrs
    ChartLib.Chart.addIfNull ChartLib.Chart.setAttr
  refine ⟨⟨?_, ?_, ?_, ?_, ?_, ?_⟩, ?_, ?_, ?_, ?_, ?_, ?_, ?_⟩
  · simp
  · simp
  · simp
  · simp
  · simp
  · intro f h1 h2 h3 h4 h5
    simp [h1, h2, h3, h4, h5]
  · simp
  · simp
  · simp
  · simp
  · simp
  · simp
  · intro f h1 h2 h3 h4 h5 h6
    simp [h1, h2, h3, h4, h5, h6]

/-- Witness for C10: on the sample attributes object (cx supplied as 99,
everything else absent), Scatterplot.setData keeps the caller's cx,
installs the class and id defaults, and leaves the fill field untouched;
Histogram.setData installs its width default. -/
theorem setdata_attribute_defaults_witness :
    ChartLib.Scatterplot.setDataAttrs ChartLib.sampleAttrs 1 5 3 4 6 "class" =
      some 5 ∧
    ChartLib.Scatterplot.setDataAttrs ChartLib.sampleAttrs 1 5 3 4 6 "cx" =
      some 99 ∧
    ChartLib.Scatterplot.setDataAttrs ChartLib.sampleAttrs 1 5 3 4 6 "id" =
      some 1 ∧
    ChartLib.Scatterplot.setDataAttrs ChartLib.sampleAttrs 1 5 3 4 6 "fill" =
      ChartLib.sampleAttrs "fill" ∧
    ChartLib.Histogram.setDataAttrs ChartLib.sampleAttrs 1 5 3 4 6 7 "width" =
      some 6 := by
  have h := setdata_attribute_defaults ChartLib.sampleAttrs 1 5 3 4 6 3 4 6 7
  refine ⟨h.1.1, ?_, ?_, h.1.2.2.2.2.2 "fill" (by decide) (by decide)
    (by decide) (by decide) (by decide), ?_⟩
  · rw [h.1.2.2.1]
    rfl
  · rw [h.1.2.1]
    rfl
  · rw [h.2.2.2.2.2.1]
    rfl

/-- Witness for C7 at start = 1, size = 3, end = 5: the generated list is
[1, 3, 5]. -/
theorem chart_genSequence_linear_witness :
    (2 : ℤ) ≤ 3 ∧
    ((ChartLib.Chart.genSequence 1 3 5).length = (3 : ℤ).toNat ∧
     (ChartLib.Chart.genSequence 1 3 5).head? = some 1 ∧
     (ChartLib.Chart.genSequence 1 3 5).getLast? = some 5 ∧
     ∀ i : ℕ, i + 1 < (ChartLib.Chart.genSequence 1 3 5).length →
       (ChartLib.Chart.genSequence 1 3 5).getD (i + 1) 0 -
         (ChartLib.Chart.genSequence 1 3 5).getD i 0 =
         (5 - 1) / ((3 : ℚ) - 1)) :=
  ⟨by decide, chart_genSequence_linear 1 5 3 (by decide)⟩
